import Mathlib

/-!
Verification of the optimistic-update reconciler in `src/components/Todo.jsx`.

The component keeps two pieces of state that matter to the reconciliation
contract: the task collection (`todos`) and the initial-fetch flag
(`loading`).  The form fields and the search query are component-local UI
state with no influence on the reconciler, so they appear here as explicit
function arguments.  Network calls (`API.get`, `API.post`, `API.delete`),
the `alert` notification and `console.error` are modelled as an `Effect`
trace emitted by each handler; the outcome of each network call is an
explicit parameter (`Option`/outcome types), since the remote store is an
external collaborator.  Handlers are executed sequentially (one operation
settles before the next begins), matching the single-threaded event-loop
model; `handleAddTodo`'s rollback uses the closure-captured pre-insert
collection exactly as the source does.

JavaScript string primitives (`trim`, `toLowerCase`, `includes`) are
re-implemented over `List Char` so that every definition evaluates inside
the kernel.
-/

namespace TodoApp

/-- A todo item as built by `Todo.jsx`: server items come from
`res.data.data`; optimistic items are
`{ ...formData, _id: tempId, createdAt: new Date(), sync: false }`.
`sync` is `some false` on optimistic items and arbitrary (typically absent,
`none`) on server items; `createdAt` is a timestamp. -/
structure Task where
  _id : String
  title : String
  description : String
  createdAt : Nat
  sync : Option Bool
deriving DecidableEq

/-- The reconciler-relevant component state: `useState([])` for `todos`
and `useState(true)` for `loading`. -/
structure AppState where
  todos : List Task
  loading : Bool
deriving DecidableEq

/-- Externally visible actions performed by the handlers: HTTP requests,
the `alert` call and `console.error`. -/
inductive Effect where
  | getTodos
  | postCreate (title description : String)
  | deleteTodo (id : String)
  | alertMsg (msg : String)
  | consoleError
deriving DecidableEq

/-- Whether `e` is a user-visible notification (`alert`). -/
def isAlert : Effect → Bool
  | Effect.alertMsg _ => true
  | _ => false

/-- Whether `e` is a network request. -/
def isRequest : Effect → Bool
  | Effect.getTodos => true
  | Effect.postCreate _ _ => true
  | Effect.deleteTodo _ => true
  | _ => false

/-- Character-list version of JavaScript `String.prototype.startsWith`. -/
def strStartsWith : List Char → List Char → Bool
  | _, [] => true
  | [], _ :: _ => false
  | a :: as, b :: bs => a == b && strStartsWith as bs

/-- Occurrence test `hasSub hay nd`: `nd` occurs as a contiguous run inside `hay`. -/
def hasSub : List Char → List Char → Bool
  | [], nd => strStartsWith [] nd
  | c :: t, nd => strStartsWith (c :: t) nd || hasSub t nd

/-- JavaScript `s.includes(sub)`. -/
def jsIncludes (s sub : String) : Bool := hasSub s.data sub.data

/-- JavaScript `s.toLowerCase()`. -/
def jsToLower (s : String) : String := ⟨s.data.map Char.toLower⟩

/-- JavaScript `s.trim()`: strip whitespace from both ends. -/
def jsTrim (s : String) : String :=
  ⟨((s.data.dropWhile Char.isWhitespace).reverse.dropWhile Char.isWhitespace).reverse⟩

/-- Model of `fetchTodos` (`Todo.jsx` lines 10-19): `API.get('/todos')`; on success
`setTodos(res.data.data)`, on failure `console.error` and the collection is
left alone; `finally { setLoading(false) }` runs on both paths.  The
`result` parameter is the outcome of the GET request (`none` = failure). -/
def fetchTodos (s : AppState) (result : Option (List Task)) : AppState × List Effect :=
  match result with
  | some l => ({ todos := l, loading := false }, [Effect.getTodos])
  | none => ({ todos := s.todos, loading := false }, [Effect.getTodos, Effect.consoleError])

/-- Outcome of the `API.post('/createTodo', formData)` call: the POST
either rejects, or resolves and the follow-up `fetchTodos()` GET itself
either returns a list or fails. -/
inductive CreateOutcome where
  | postFailed
  | postOk (fetched : Option (List Task))
deriving DecidableEq

/-- The optimistic todo built at `Todo.jsx` line 37:
`{ ...formData, _id: tempId, createdAt: new Date(), sync: false }`. -/
def mkTempTodo (title description tempId : String) (now : Nat) : Task :=
  { _id := tempId, title := title, description := description,
    createdAt := now, sync := some false }

/-- Model of `handleAddTodo` (`Todo.jsx` lines 31-48).  Returns the collection right
after the optimistic insert (first component), the settled state and the
effect trace.  The guard is `if (!formData.title.trim()) return`.  On
failure the source rolls back with `setTodos(todos.filter(t => t._id !==
tempId))` where `todos` is the closure-captured pre-insert collection;
this is modelled verbatim as `s.todos.filter`. -/
def handleAddTodo (s : AppState) (title description tempId : String) (now : Nat)
    (oc : CreateOutcome) : List Task × AppState × List Effect :=
  if jsTrim title == "" then (s.todos, s, [])
  else
    let newTodo := mkTempTodo title description tempId now
    let optimistic := newTodo :: s.todos
    match oc with
    | CreateOutcome.postFailed =>
        (optimistic,
         { s with todos := s.todos.filter (fun t => t._id != tempId) },
         [Effect.postCreate title description, Effect.alertMsg "Failed to save todo."])
    | CreateOutcome.postOk fetched =>
        let res := fetchTodos { s with todos := optimistic } fetched
        (optimistic, res.1, Effect.postCreate title description :: res.2)

/-- Outcome of the `API.delete` call: success, or failure followed by the
revert `fetchTodos()` whose own GET outcome is `reload`. -/
inductive DeleteOutcome where
  | ok
  | failed (reload : Option (List Task))
deriving DecidableEq

/-- Model of `handleDelete` (`Todo.jsx` lines 50-58).  Returns the collection right
after the optimistic removal (first component), the settled state and the
effect trace. -/
def handleDelete (s : AppState) (id : String) (oc : DeleteOutcome) :
    List Task × AppState × List Effect :=
  let optimistic := s.todos.filter (fun t => t._id != id)
  match oc with
  | DeleteOutcome.ok =>
      (optimistic, { s with todos := optimistic }, [Effect.deleteTodo id])
  | DeleteOutcome.failed reload =>
      let res := fetchTodos { s with todos := optimistic } reload
      (optimistic, res.1, Effect.deleteTodo id :: res.2)

/-- One user-triggered reconciler operation together with the outcome the
remote store hands back for it. -/
inductive OpCall where
  | load (result : Option (List Task))
  | create (title description tempId : String) (now : Nat) (oc : CreateOutcome)
  | remove (id : String) (oc : DeleteOutcome)

/-- Run one operation to completion from state `s`. -/
def step (s : AppState) (op : OpCall) : AppState × List Effect :=
  match op with
  | OpCall.load r => fetchTodos s r
  | OpCall.create t d tid now oc =>
      ((handleAddTodo s t d tid now oc).2.1, (handleAddTodo s t d tid now oc).2.2)
  | OpCall.remove id oc =>
      ((handleDelete s id oc).2.1, (handleDelete s id oc).2.2)

/-- Run a sequence of operations, each settling before the next begins. -/
def runOps (s : AppState) : List OpCall → AppState
  | [] => s
  | op :: ops => runOps (step s op).1 ops

/-- The ids of the collection are pairwise distinct. -/
def nodupIds (l : List Task) : Bool := decide (l.map (fun t => t._id)).Nodup

/-- A fetched list is well-formed when its ids are pairwise distinct
(server responses are assumed duplicate-free). -/
def fetchWf : Option (List Task) → Bool
  | some l => nodupIds l
  | none => true

/-- Environment assumptions for one operation, taken from the spec's data
model: a temporary id is fresh (distinct from every id currently in the
collection and from every server id in the confirming fetch), and server
responses carry duplicate-free ids. -/
def opWf (s : AppState) : OpCall → Bool
  | OpCall.load r => fetchWf r
  | OpCall.create _ _ tid _ oc =>
      !(decide (tid ∈ s.todos.map (fun t => t._id))) &&
      (match oc with
       | CreateOutcome.postOk fetched =>
           fetchWf fetched &&
           (match fetched with
            | some l => !(decide (tid ∈ l.map (fun t => t._id)))
            | none => true)
       | CreateOutcome.postFailed => true)
  | OpCall.remove _ oc =>
      match oc with
      | DeleteOutcome.failed reload => fetchWf reload
      | DeleteOutcome.ok => true

/-- The environment assumptions hold at every step along a run. -/
def traceWf (s : AppState) : List OpCall → Bool
  | [] => true
  | op :: ops => opWf s op && traceWf (step s op).1 ops

/-- Predicate of the `filteredTodos` memo (`Todo.jsx` lines 24-29):
case-insensitive substring match of the query against `title` OR
`description`. -/
def matchesQuery (searchQuery : String) (t : Task) : Bool :=
  jsIncludes (jsToLower t.title) (jsToLower searchQuery) ||
    jsIncludes (jsToLower t.description) (jsToLower searchQuery)

/-- Model of `filteredTodos` (`Todo.jsx` lines 24-29) over well-formed
tasks: `todos.filter(t => t.title.toLowerCase().includes(q.toLowerCase())
|| t.description.toLowerCase().includes(q.toLowerCase()))`. -/
def filteredTodos (todos : List Task) (searchQuery : String) : List Task :=
  todos.filter (fun t =>
    jsIncludes (jsToLower t.title) (jsToLower searchQuery) ||
      jsIncludes (jsToLower t.description) (jsToLower searchQuery))

/-- A task as the JavaScript code actually receives it: `title` and
`description` may be absent (`undefined`), e.g. on a server item stored
without a description. -/
structure JsTask where
  _id : String
  title : Option String
  description : Option String
deriving DecidableEq

/-- Model of the filter predicate of `filteredTodos` with JavaScript error
semantics: calling `.toLowerCase()` on an absent (`undefined`) field
throws a `TypeError`; `||` short-circuits, so the `description` access is
only reached when the `title` match fails. -/
def jsMatchesQuery (searchQuery : String) (t : JsTask) : Except String Bool :=
  match t.title with
  | none => Except.error "TypeError"
  | some ti =>
    if jsIncludes (jsToLower ti) (jsToLower searchQuery) then Except.ok true
    else
      match t.description with
      | none => Except.error "TypeError"
      | some de => Except.ok (jsIncludes (jsToLower de) (jsToLower searchQuery))

/-- Model of `Array.prototype.filter` with a throwing predicate: elements
are visited left to right and the first thrown error aborts the whole
computation. -/
def jsFilter (p : JsTask → Except String Bool) : List JsTask → Except String (List JsTask)
  | [] => Except.ok []
  | t :: rest =>
    match p t with
    | Except.error e => Except.error e
    | Except.ok b =>
      match jsFilter p rest with
      | Except.error e => Except.error e
      | Except.ok r => Except.ok (if b then t :: r else r)

/-- Model of `filteredTodos` with JavaScript error semantics over
possibly-incomplete tasks. -/
def filteredTodosJs (todos : List JsTask) (searchQuery : String) :
    Except String (List JsTask) :=
  jsFilter (jsMatchesQuery searchQuery) todos

theorem filter_ne_of_not_mem (l : List Task) (tid : String)
    (h : tid ∉ l.map (fun t => t._id)) :
    l.filter (fun t => t._id != tid) = l := by
  induction l with
  | nil => rfl
  | cons a t ih =>
    simp only [List.map_cons, List.mem_cons, not_or] at h
    have ha : (a._id != tid) = true := by
      simp only [bne_iff_ne, ne_eq]
      exact fun e => h.1 e.symm
    simp only [List.filter_cons, ha, if_true, ih h.2]

theorem filter_ne_eq_eraseP (l : List Task) (id : String)
    (h : (l.map (fun t => t._id)).Nodup) :
    l.filter (fun t => t._id != id) = l.eraseP (fun t => t._id == id) := by
  induction l with
  | nil => rfl
  | cons a t ih =>
    simp only [List.map_cons, List.nodup_cons] at h
    by_cases hid : a._id = id
    · subst hid
      simp only [List.filter_cons, List.eraseP_cons, bne_self_eq_false, beq_self_eq_true,
        Bool.false_eq_true, if_false, cond_true]
      exact filter_ne_of_not_mem t a._id h.1
    · have hb : (a._id != id) = true := by
        simp only [bne_iff_ne, ne_eq]
        exact hid
      have hb2 : (a._id == id) = false := by
        simp only [beq_eq_false_iff_ne, ne_eq]
        exact hid
      simp only [List.filter_cons, List.eraseP_cons, hb, hb2, if_true, cond_false, ih h.2]

theorem nodupIds_filter (l : List Task) (p : Task → Bool) (h : nodupIds l = true) :
    nodupIds (l.filter p) = true := by
  simp only [nodupIds, decide_eq_true_eq] at h ⊢
  exact List.Nodup.sublist (List.Sublist.map _ (List.filter_sublist l)) h

theorem step_preserves_nodupIds (s : AppState) (op : OpCall)
    (h : nodupIds s.todos = true) (hwf : opWf s op = true) :
    nodupIds (step s op).1.todos = true := by
  cases op with
  | load r =>
    cases r with
    | none => simpa [step, fetchTodos] using h
    | some l => simpa [step, fetchTodos, opWf, fetchWf] using hwf
  | create t d tid now oc =>
    by_cases hT : jsTrim t == ""
    · simpa [step, handleAddTodo, hT] using h
    · cases oc with
      | postFailed =>
        simp only [step, handleAddTodo, hT, Bool.false_eq_true, if_false]
        exact nodupIds_filter _ _ h
      | postOk fetched =>
        cases fetched with
        | some l =>
          simp only [opWf, fetchWf, Bool.and_eq_true, decide_eq_true_eq] at hwf
          simpa [step, handleAddTodo, hT, fetchTodos] using hwf.2.1
        | none =>
          simp only [opWf, fetchWf, Bool.and_eq_true, Bool.not_eq_true',
            decide_eq_false_iff_not] at hwf
          simp only [step, handleAddTodo, hT, Bool.false_eq_true, if_false, fetchTodos]
          simp only [nodupIds, decide_eq_true_eq] at h ⊢
          simp only [List.map_cons, List.nodup_cons, mkTempTodo]
          exact ⟨hwf.1, h⟩
  | remove id oc =>
    cases oc with
    | ok =>
      simp only [step, handleDelete]
      exact nodupIds_filter _ _ h
    | failed reload =>
      cases reload with
      | some l =>
        simp only [opWf, fetchWf] at hwf
        simpa [step, handleDelete, fetchTodos] using hwf
      | none =>
        simp only [step, handleDelete, fetchTodos]
        exact nodupIds_filter _ _ h

theorem runOps_preserves_nodupIds (ops : List OpCall) : ∀ s : AppState,
    nodupIds s.todos = true → traceWf s ops = true →
    nodupIds (runOps s ops).todos = true := by
  induction ops with
  | nil =>
    intro s h _
    simpa [runOps] using h
  | cons op ops ih =>
    intro s h hwf
    simp only [traceWf, Bool.and_eq_true] at hwf
    exact ih _ (step_preserves_nodupIds s op h hwf.1) hwf.2

theorem fetchTodos_loading_false (s : AppState) (r : Option (List Task)) :
    (fetchTodos s r).1.loading = false := by
  cases r <;> rfl

theorem step_loading_false (s : AppState) (op : OpCall) (h : s.loading = false) :
    (step s op).1.loading = false := by
  cases op with
  | load r => exact fetchTodos_loading_false s r
  | create t d tid now oc =>
    by_cases hT : jsTrim t == ""
    · simpa [step, handleAddTodo, hT] using h
    · cases oc with
      | postFailed => simpa [step, handleAddTodo, hT] using h
      | postOk fetched => cases fetched <;> simp [step, handleAddTodo, hT, fetchTodos]
  | remove id oc =>
    cases oc with
    | ok => simpa [step, handleDelete] using h
    | failed reload => cases reload <;> simp [step, handleDelete, fetchTodos]

theorem runOps_loading_false (ops : List OpCall) : ∀ s : AppState,
    s.loading = false → (runOps s ops).loading = false := by
  induction ops with
  | nil =>
    intro s h
    simpa [runOps] using h
  | cons op ops ih =>
    intro s h
    exact ih _ (step_loading_false s op h)

/-- Claim C1: when the create POST fails after the optimistic insert, the
reconciler removes exactly the temporary entry (matched by its temporary
id): the settled collection equals the pre-insert collection, and equals
the failure-time collection with the temporary id filtered out; the
user-visible failure notification is raised exactly once; and the only
request issued is the one create POST, so no automatic retry is attempted.
Instantiated at the empty collection this leaves the collection empty. -/
theorem create_failure_exact_rollback (s : AppState) (title description tempId : String)
    (now : Nat) (hT : (jsTrim title == "") = false)
    (hF : tempId ∉ s.todos.map (fun t => t._id)) :
    (handleAddTodo s title description tempId now CreateOutcome.postFailed).2.1.todos
      = s.todos ∧
    (handleAddTodo s title description tempId now CreateOutcome.postFailed).2.1.todos
      = ((handleAddTodo s title description tempId now CreateOutcome.postFailed).1).filter
          (fun t => t._id != tempId) ∧
    ((handleAddTodo s title description tempId now CreateOutcome.postFailed).2.2).filter
        isAlert = [Effect.alertMsg "Failed to save todo."] ∧
    ((handleAddTodo s title description tempId now CreateOutcome.postFailed).2.2).filter
        isRequest = [Effect.postCreate title description] := by
  have hfil := filter_ne_of_not_mem s.todos tempId hF
  refine ⟨?_, ?_, ?_, ?_⟩ <;>
    simp [handleAddTodo, hT, mkTempTodo, isAlert, isRequest, List.filter_cons, hfil]

/-- Concrete instance of `create_failure_exact_rollback`: a failed create
on the empty collection leaves the collection empty. -/
theorem create_failure_exact_rollback_witness :
    (handleAddTodo ⟨[], true⟩ "X" "Y" "t1" 0 CreateOutcome.postFailed).2.1.todos = [] :=
  (create_failure_exact_rollback ⟨[], true⟩ "X" "Y" "t1" 0 (by decide) (by decide)).1

/-- Claim C2 counterexample: the create outcome is known (the POST
succeeded), yet the temporary entry persists in the visible collection,
because the confirming fetch failed and `fetchTodos` then leaves the
optimistic collection in place: from the empty collection, a create with
successful POST and failed confirm fetch settles with the collection
holding exactly the temporary entry (temporary id `"t1"`, `sync =
false`). -/
theorem temp_entry_persists_after_confirm_fetch_failure :
    (step ⟨[], true⟩ (OpCall.create "X" "Y" "t1" 0 (CreateOutcome.postOk none))).1.todos
      = [mkTempTodo "X" "Y" "t1" 0] ∧
    ((step ⟨[], true⟩ (OpCall.create "X" "Y" "t1" 0
        (CreateOutcome.postOk none))).1.todos.any
          (fun t => t._id == "t1" && t.sync == some false)) = true := by
  exact ⟨rfl, rfl⟩

/-- Claim C2 (amended): under the spec's data-model assumptions that
temporary ids are fresh and server responses carry duplicate-free ids
(`traceWf`), the collection never simultaneously holds two entries with
the same id along any sequence of load/create/remove operations; on create
failure the settled collection holds no entry with the temporary id; and
on create success *whose confirming fetch succeeds* the settled collection
is the fetched list verbatim, which discards the temporary entry (if the
confirming fetch fails, the temporary entry persists until some later
successful load). -/
theorem no_duplicate_ids_amended :
    (∀ (s : AppState) (ops : List OpCall),
        nodupIds s.todos = true → traceWf s ops = true →
        nodupIds (runOps s ops).todos = true) ∧
    (∀ (s : AppState) (title description tempId : String) (now : Nat),
        tempId ∉ s.todos.map (fun t => t._id) →
        ((handleAddTodo s title description tempId now
            CreateOutcome.postFailed).2.1.todos.all (fun t => t._id != tempId)) = true) ∧
    (∀ (s : AppState) (title description tempId : String) (now : Nat) (l : List Task),
        (jsTrim title == "") = false →
        (handleAddTodo s title description tempId now
            (CreateOutcome.postOk (some l))).2.1.todos = l) := by
  refine ⟨fun s ops h hwf => runOps_preserves_nodupIds ops s h hwf, ?_, ?_⟩
  · intro s title description tempId now hF
    by_cases hT : jsTrim title == ""
    · simp only [handleAddTodo, hT, if_true, List.all_eq_true]
      intro t ht
      simp only [bne_iff_ne, ne_eq]
      intro e
      exact hF (e ▸ List.mem_map_of_mem (fun t => t._id) ht)
    · simp only [handleAddTodo, hT, Bool.false_eq_true, if_false, List.all_eq_true]
      intro t ht
      exact (List.mem_filter.1 ht).2
  · intro s title description tempId now l hT
    simp [handleAddTodo, hT, fetchTodos]

/-- Concrete instance of `no_duplicate_ids_amended`: a well-formed
create-then-load run from the empty collection keeps the ids
duplicate-free. -/
theorem no_duplicate_ids_amended_witness :
    nodupIds (runOps ⟨[], true⟩
      [OpCall.create "Buy milk" "2" "t1" 0
          (CreateOutcome.postOk (some [⟨"s1", "Buy milk", "2", 7, none⟩])),
        OpCall.load (some [⟨"s1", "Buy milk", "2", 7, none⟩,
          ⟨"s2", "B", "", 8, none⟩])]).todos = true :=
  no_duplicate_ids_amended.1 ⟨[], true⟩ _ (by decide) (by decide)

/-- Claim C3: `fetchTodos` on success replaces the in-memory collection
with the fetched list verbatim, in the store's order with no client-side
sort; on failure it leaves the collection untouched and only records the
failure on the console, returning normally (non-fatal) with no
user-visible notification. -/
theorem load_replaces_verbatim_or_leaves_untouched :
    (∀ (s : AppState) (l : List Task),
        fetchTodos s (some l)
          = ({ todos := l, loading := false }, [Effect.getTodos])) ∧
    (∀ s : AppState,
        fetchTodos s none
          = ({ todos := s.todos, loading := false },
              [Effect.getTodos, Effect.consoleError])) ∧
    (∀ (s : AppState) (r : Option (List Task)),
        ((fetchTodos s r).2).filter isAlert = []) := by
  refine ⟨fun s l => rfl, fun s => rfl, fun s r => ?_⟩
  cases r <;> rfl

/-- Claim C4: with a title that is non-empty after trimming, the
optimistic phase of `handleAddTodo` synthesizes the temporary task and
inserts it at the front of the collection — the pre-network collection is
exactly the new task consed onto the previous collection, identically for
every later network outcome (so visible before any network call settles),
with all pre-existing items preserved in their order — and the temporary
task carries the temporary id, `sync = false` (pending) and `createdAt =
now`. -/
theorem create_optimistic_front_insert (s : AppState)
    (title description tempId : String) (now : Nat) (oc : CreateOutcome)
    (hT : (jsTrim title == "") = false) :
    (handleAddTodo s title description tempId now oc).1
      = mkTempTodo title description tempId now :: s.todos ∧
    (mkTempTodo title description tempId now)._id = tempId ∧
    (mkTempTodo title description tempId now).sync = some false ∧
    (mkTempTodo title description tempId now).createdAt = now := by
  refine ⟨?_, rfl, rfl, rfl⟩
  cases oc <;> simp [handleAddTodo, hT]

/-- Concrete instance of `create_optimistic_front_insert`: the optimistic
collection is the temporary task in front of the pre-existing items. -/
theorem create_optimistic_front_insert_witness :
    (handleAddTodo ⟨[⟨"s1", "A", "B", 1, none⟩], false⟩ "T" "D" "t9" 5
        CreateOutcome.postFailed).1
      = [mkTempTodo "T" "D" "t9" 5, ⟨"s1", "A", "B", 1, none⟩] :=
  (create_optimistic_front_insert ⟨[⟨"s1", "A", "B", 1, none⟩], false⟩
    "T" "D" "t9" 5 CreateOutcome.postFailed (by decide)).1

/-- Claim C5: the optimistic phase of `handleDelete` is identical for
every later network outcome (no network wait) and filters the id out of
the collection; the result is a sublist of the previous collection, so all
surviving items keep their identities and relative order; every item with
a different id survives; under the data-model invariant of duplicate-free
ids the result is exactly the previous collection with the single matching
entry erased; and an id absent from the collection makes it an error-free
no-op. -/
theorem delete_optimistic_frame (s : AppState) (id : String) (oc : DeleteOutcome) :
    (handleDelete s id oc).1 = s.todos.filter (fun t => t._id != id) ∧
    List.Sublist (handleDelete s id oc).1 s.todos ∧
    (∀ t ∈ s.todos, t._id ≠ id → t ∈ (handleDelete s id oc).1) ∧
    ((s.todos.map (fun t => t._id)).Nodup →
        (handleDelete s id oc).1 = s.todos.eraseP (fun t => t._id == id)) ∧
    (id ∉ s.todos.map (fun t => t._id) → (handleDelete s id oc).1 = s.todos) := by
  have h1 : (handleDelete s id oc).1 = s.todos.filter (fun t => t._id != id) := by
    cases oc <;> rfl
  refine ⟨h1, ?_, ?_, ?_, ?_⟩
  · rw [h1]
    exact List.filter_sublist s.todos
  · intro t ht hne
    rw [h1]
    exact List.mem_filter.2 ⟨ht, by simpa [bne_iff_ne] using hne⟩
  · intro hnd
    rw [h1]
    exact filter_ne_eq_eraseP s.todos id hnd
  · intro hnm
    rw [h1]
    exact filter_ne_of_not_mem s.todos id hnm

/-- Concrete instance of `delete_optimistic_frame`: removing an id absent
from the collection leaves the collection unchanged. -/
theorem delete_optimistic_frame_witness :
    (handleDelete ⟨[⟨"a", "A", "", 0, none⟩, ⟨"b", "B", "", 0, none⟩], false⟩
        "z" DeleteOutcome.ok).1
      = [⟨"a", "A", "", 0, none⟩, ⟨"b", "B", "", 0, none⟩] :=
  (delete_optimistic_frame ⟨[⟨"a", "A", "", 0, none⟩, ⟨"b", "B", "", 0, none⟩], false⟩
    "z" DeleteOutcome.ok).2.2.2.2 (by decide)

/-- Claim C6: after the optimistic removal, a successful DELETE takes no
further action (the settled collection is the optimistic one and the only
effect is the DELETE request); a failed DELETE triggers `fetchTodos`,
which restores the server state (the settled collection is the reloaded
list when the reload succeeds, and stays the optimistic one when the
reload also fails); no delete outcome ever raises a user-visible
notification, and neither does `fetchTodos`, while a failed create does —
failures are reported to the user only for create. -/
theorem delete_settle_silent_failures :
    (∀ (s : AppState) (id : String),
        (handleDelete s id DeleteOutcome.ok).2.1.todos
            = (handleDelete s id DeleteOutcome.ok).1 ∧
        (handleDelete s id DeleteOutcome.ok).2.2 = [Effect.deleteTodo id]) ∧
    (∀ (s : AppState) (id : String) (l : List Task),
        (handleDelete s id (DeleteOutcome.failed (some l))).2.1.todos = l ∧
        (handleDelete s id (DeleteOutcome.failed (some l))).2.2
          = [Effect.deleteTodo id, Effect.getTodos]) ∧
    (∀ (s : AppState) (id : String),
        (handleDelete s id (DeleteOutcome.failed none)).2.1.todos
          = s.todos.filter (fun t => t._id != id) ∧
        (handleDelete s id (DeleteOutcome.failed none)).2.2
          = [Effect.deleteTodo id, Effect.getTodos, Effect.consoleError]) ∧
    (∀ (s : AppState) (id : String) (oc : DeleteOutcome),
        ((handleDelete s id oc).2.2).filter isAlert = []) ∧
    (∀ (s : AppState) (r : Option (List Task)),
        ((fetchTodos s r).2).filter isAlert = []) ∧
    (∀ (s : AppState) (title description tempId : String) (now : Nat),
        (jsTrim title == "") = false →
        ((handleAddTodo s title description tempId now
            CreateOutcome.postFailed).2.2).filter isAlert
          = [Effect.alertMsg "Failed to save todo."]) := by
  refine ⟨fun s id => ⟨rfl, rfl⟩, fun s id l => ⟨rfl, rfl⟩, fun s id => ⟨rfl, rfl⟩,
    ?_, ?_, ?_⟩
  · intro s id oc
    cases oc with
    | ok => rfl
    | failed reload => cases reload <;> rfl
  · intro s r
    cases r <;> rfl
  · intro s title description tempId now hT
    simp [handleAddTodo, hT, isAlert]

/-- Concrete instance of `delete_settle_silent_failures`: the one
user-visible notification is the create-failure alert. -/
theorem delete_settle_silent_failures_witness :
    ((handleAddTodo ⟨[], false⟩ "X" "Y" "t1" 0
        CreateOutcome.postFailed).2.2).filter isAlert
      = [Effect.alertMsg "Failed to save todo."] :=
  delete_settle_silent_failures.2.2.2.2.2 ⟨[], false⟩ "X" "Y" "t1" 0 (by decide)

/-- Claim C7: with a title that is empty after trimming (JavaScript falsy
guard `if (!formData.title.trim()) return`), `handleAddTodo` is a complete
no-op for every network outcome: no optimistic insert, the state is
unchanged and the effect trace is empty — in particular no collection
mutation and no network request. -/
theorem create_blank_title_noop (s : AppState) (title description tempId : String)
    (now : Nat) (oc : CreateOutcome) (hT : (jsTrim title == "") = true) :
    handleAddTodo s title description tempId now oc = (s.todos, s, []) := by
  simp [handleAddTodo, hT]

/-- Concrete instance of `create_blank_title_noop` at a whitespace-only
title. -/
theorem create_blank_title_noop_witness :
    handleAddTodo ⟨[⟨"a", "A", "", 0, none⟩], false⟩ "   " "desc" "t1" 3
        CreateOutcome.postFailed
      = ([⟨"a", "A", "", 0, none⟩], ⟨[⟨"a", "A", "", 0, none⟩], false⟩, []) :=
  create_blank_title_noop ⟨[⟨"a", "A", "", 0, none⟩], false⟩ "   " "desc" "t1" 3
    CreateOutcome.postFailed (by decide)

/-- Claim C8: `filteredTodos` selects exactly the tasks whose title OR
description contains the query as a case-insensitive substring (membership
characterization via `matchesQuery`); it never mutates the underlying
collection — the result is a sublist of it and the collection itself is
untouched, `filteredTodos` being a pure function; and it is idempotent:
filtering the filtered result with the same query yields the same
result. -/
theorem search_filter_pure_idempotent (todos : List Task) (searchQuery : String) :
    (∀ t : Task, t ∈ filteredTodos todos searchQuery ↔
        t ∈ todos ∧ matchesQuery searchQuery t = true) ∧
    List.Sublist (filteredTodos todos searchQuery) todos ∧
    filteredTodos (filteredTodos todos searchQuery) searchQuery
      = filteredTodos todos searchQuery := by
  refine ⟨?_, List.filter_sublist todos, ?_⟩
  · intro t
    simp [filteredTodos, matchesQuery, List.mem_filter]
  · simp [filteredTodos, List.filter_filter]

/-- Claim C9: the loading flag is cleared by the completion of a fetch on
both outcomes (success and failure); every operation preserves a cleared
loading flag — create and remove, including the nested reloads they
trigger, never set it back to true; hence after any completed fetch no
subsequent run of operations ever exposes loading again. -/
theorem loading_cleared_once_forever :
    (∀ (s : AppState) (r : Option (List Task)), (fetchTodos s r).1.loading = false) ∧
    (∀ (s : AppState) (op : OpCall), s.loading = false → (step s op).1.loading = false) ∧
    (∀ (s : AppState) (r : Option (List Task)) (ops : List OpCall),
        (runOps (fetchTodos s r).1 ops).loading = false) := by
  refine ⟨fetchTodos_loading_false, step_loading_false, fun s r ops => ?_⟩
  exact runOps_loading_false ops _ (fetchTodos_loading_false s r)

/-- Concrete instance of `loading_cleared_once_forever`: a failed reload
from a ready state stays out of the loading state. -/
theorem loading_cleared_once_forever_witness :
    (step ⟨[], false⟩ (OpCall.load none)).1.loading = false :=
  loading_cleared_once_forever.2.1 ⟨[], false⟩ (OpCall.load none) rfl

/-- Claim C10: the filtered-view computation is total on every collection
whose tasks all carry present (string-valued) `title` and `description`
fields; and the error branch is reachable — on a collection containing a
task whose `description` is absent (as a server item stored without one)
and a query its title does not match, the computation throws the
`TypeError` of calling `.toLowerCase()` on `undefined`, crashing the
view. -/
theorem filtered_view_totality_and_crash :
    (∀ (todos : List JsTask) (searchQuery : String),
        (∀ t ∈ todos, t.title.isSome = true ∧ t.description.isSome = true) →
        ∃ r, filteredTodosJs todos searchQuery = Except.ok r) ∧
    filteredTodosJs [⟨"1", some "abc", none⟩] "zzz" = Except.error "TypeError" := by
  constructor
  · intro todos searchQuery
    induction todos with
    | nil => exact fun _ => ⟨[], rfl⟩
    | cons t rest ih =>
      intro hall
      obtain ⟨ht, hd⟩ := hall t (List.mem_cons_self t rest)
      obtain ⟨rest', hrest⟩ := ih (fun x hx => hall x (List.mem_cons_of_mem t hx))
      obtain ⟨a, ha⟩ := Option.isSome_iff_exists.1 ht
      obtain ⟨b, hb⟩ := Option.isSome_iff_exists.1 hd
      have hrest2 : jsFilter (jsMatchesQuery searchQuery) rest = Except.ok rest' := hrest
      have hmatch : ∃ c, jsMatchesQuery searchQuery t = Except.ok c := by
        by_cases hm : jsIncludes (jsToLower a) (jsToLower searchQuery)
        · exact ⟨true, by simp [jsMatchesQuery, ha, hm]⟩
        · exact ⟨jsIncludes (jsToLower b) (jsToLower searchQuery),
            by simp [jsMatchesQuery, ha, hb, hm]⟩
      obtain ⟨c, hc⟩ := hmatch
      refine ⟨if c then t :: rest' else rest', ?_⟩
      simp [filteredTodosJs, jsFilter, hc, hrest2]
  · rfl

/-- Concrete instance of `filtered_view_totality_and_crash`: on a
collection whose fields are all present, the filter returns normally. -/
theorem filtered_view_totality_and_crash_witness :
    ∃ r, filteredTodosJs [⟨"1", some "Ab", some "c"⟩] "b" = Except.ok r :=
  filtered_view_totality_and_crash.1 [⟨"1", some "Ab", some "c"⟩] "b" (by decide)

end TodoApp
